import Mathlib

/-!
Verification development for the TCM lung-case query gateway
(`app.py` and `app_test.py`): the Cypher safety validator, the
query repair engine (`auto_fix_cypher` and the template chain of the
`/ask` route), the result formatter, the follow-up detector and the
per-session context map.

Python strings are embedded as `List Char`.  The regular expressions of
the source are embedded as explicit scanners.  Scope of the model of
the Python `re` module: the word class used by word boundaries is the
ASCII class (letters, digits, underscore); whitespace is the ASCII
whitespace set; `splitlines` handles the ASCII line terminators
(LF, CR, CRLF, VT, FF).  All the keyword patterns of the source are
ASCII, and every greedy subpattern of the source is followed by a
character that its class excludes, so maximal-munch scanning agrees
with backtracking semantics on these patterns.
-/

set_option maxRecDepth 40000

def pystr (s : String) : List Char := s.data

/-- ASCII word character, the model of the regex class used by word boundaries. -/
def wordChar (c : Char) : Bool :=
  (65 ≤ c.toNat && c.toNat ≤ 90) || (97 ≤ c.toNat && c.toNat ≤ 122) ||
  (48 ≤ c.toNat && c.toNat ≤ 57) || c.toNat == 95

/-- ASCII whitespace, the model of the regex whitespace class and of the
characters removed by the string strip method. -/
def spaceChar (c : Char) : Bool :=
  c.toNat == 32 || c.toNat == 9 || c.toNat == 10 || c.toNat == 13 ||
  c.toNat == 11 || c.toNat == 12

/-- Line terminators handled by the model of the splitlines method. -/
def lineBreakChar (c : Char) : Bool :=
  c.toNat == 10 || c.toNat == 13 || c.toNat == 11 || c.toNat == 12

/-- Worker for the model of the splitlines method: `acc` is the current
line, reversed. -/
def splitlinesGo (acc : List Char) : List Char → List (List Char)
  | [] => [acc.reverse]
  | c :: cs =>
    if c.toNat == 13 then
      match cs with
      | [] => [acc.reverse]
      | d :: ds =>
        if d.toNat == 10 then
          acc.reverse :: (match ds with
            | [] => []
            | e :: es => splitlinesGo [] (e :: es))
        else acc.reverse :: splitlinesGo [] (d :: ds)
    else if lineBreakChar c then
      acc.reverse :: (match cs with
        | [] => []
        | e :: es => splitlinesGo [] (e :: es))
    else splitlinesGo (c :: acc) cs

/-- Model of the Python splitlines method (a trailing terminator does not
produce a final empty line; CRLF counts as one terminator). -/
def splitlines : List Char → List (List Char)
  | [] => []
  | c :: cs => splitlinesGo [] (c :: cs)

/-- Model of the Python strip method with no arguments. -/
def pstrip (s : List Char) : List Char :=
  ((s.dropWhile spaceChar).reverse.dropWhile spaceChar).reverse

/-- Case-insensitive ASCII character match: `p` is a stored lowercase
pattern character, `c` an input character. -/
def matchChar (p c : Char) : Bool :=
  p.toNat == c.toNat || (65 ≤ c.toNat && c.toNat ≤ 90 && p.toNat == c.toNat + 32)

/-- Match a literal pattern (stored lowercase) case-insensitively at the
head of the input, returning the remaining input. -/
def matchLit : List Char → List Char → Option (List Char)
  | [], s => some s
  | _ :: _, [] => none
  | p :: ps, c :: cs => if matchChar p c then matchLit ps cs else none

/-- One token of a keyword pattern: a literal, or one-or-more whitespace. -/
inductive Tok where
  | lit (cs : List Char)
  | ws
deriving Repr, DecidableEq

/-- Match a sequence of tokens at the head of the input.  The whitespace
token takes the maximal run (the following token always starts with a
non-whitespace character in the patterns of the source). -/
def matchToks : List Tok → List Char → Option (List Char)
  | [], s => some s
  | Tok.lit p :: ts, s => (matchLit p s).bind (matchToks ts)
  | Tok.ws :: ts, s =>
    match s with
    | [] => none
    | c :: cs => if spaceChar c then matchToks ts (cs.dropWhile spaceChar) else none

/-- A keyword alternative of one of the source regexes: its token list and
whether its final character is a word character (which orients the
trailing word-boundary test). -/
structure KwPat where
  toks : List Tok
  endsWord : Bool
deriving Repr, DecidableEq

/-- Match one keyword alternative at the head of the input including the
trailing word-boundary test of the source regexes. -/
def matchOneAlt (a : KwPat) (s : List Char) : Bool :=
  match matchToks a.toks s with
  | none => false
  | some [] => a.endsWord
  | some (c :: _) => a.endsWord != wordChar c

/-- Scan the input for a keyword alternative preceded by a word boundary;
`prev` records whether the character before the current position is a
word character. -/
def searchFrom (alts : List KwPat) : Bool → List Char → Bool
  | _, [] => false
  | prev, c :: cs =>
    (!prev && alts.any (fun a => matchOneAlt a (c :: cs))) || searchFrom alts (wordChar c) cs

/-- Model of an unanchored case-insensitive search of the deny regex. -/
def denySearch (alts : List KwPat) (s : List Char) : Bool :=
  searchFrom alts false s

/-- Whether the character preceding the current position is a word
character, after scanning `l` starting from state `prev`: this is the
word-boundary state threaded by `searchFrom`. -/
def prevWord (prev : Bool) (l : List Char) : Bool :=
  l.foldl (fun _ c => wordChar c) prev

/-- A bounded occurrence of a deny-listed keyword at an explicit split of
the text: the character before the split (if any) is not a word
character, and an alternative matches at the split including its
trailing boundary. -/
def denyHit (alts : List KwPat) (l r : List Char) : Bool :=
  !(prevWord false l) && alts.any (fun a => matchOneAlt a r)

/-- Model of the anchored allow regex match on one line: optional leading
whitespace, then an allow-listed keyword with its trailing boundary. -/
def lineOk (alts : List KwPat) (l : List Char) : Bool :=
  alts.any (fun a => matchOneAlt a (l.dropWhile spaceChar))

/-- The non-empty stripped lines iterated by `is_safe_cypher`. -/
def pyLines (s : List Char) : List (List Char) :=
  ((splitlines s).map pstrip).filter (fun l => !l.isEmpty)

/-- The common body of the two validators: deny-list scan, then the
allow-list test on every non-empty stripped line. -/
def isSafeCore (deny allow : List KwPat) (s : List Char) : Bool :=
  if denySearch deny s then false
  else (pyLines s).all (fun l => lineOk allow l)

def kw1 (s : String) : KwPat := ⟨[Tok.lit s.data], true⟩
def kw2 (a b : String) : KwPat := ⟨[Tok.lit a.data, Tok.ws, Tok.lit b.data], true⟩
def kwDot (s : String) : KwPat := ⟨[Tok.lit s.data], false⟩
def kw2Dot (a b : String) : KwPat := ⟨[Tok.lit a.data, Tok.ws, Tok.lit b.data], false⟩

namespace App

/-- The deny regex alternatives of `MUTATING_BAD` in app.py, in source
order (order does not affect whether a search succeeds). -/
def MUTATING_BAD : List KwPat :=
  [kw1 "create", kw1 "merge", kw1 "set", kw1 "delete", kw2 "detach" "delete",
   kw1 "remove", kw1 "drop", kw2 "load" "csv", kwDot "apoc.",
   kw2 "call" "dbms", kw2Dot "call" "db.index.", kw2Dot "call" "db."]

/-- The allow regex alternatives of `READ_ONLY_OK` in app.py. -/
def READ_ONLY_OK : List KwPat :=
  [kw1 "call", kw1 "match", kw2 "optional" "match", kw1 "with", kw1 "unwind",
   kw1 "return", kw1 "where", kw2 "order" "by", kw1 "limit", kw1 "skip",
   kw1 "profile", kw1 "explain", kw1 "union"]

/-- Model of `is_safe_cypher` in app.py. -/
def is_safe_cypher (cypher : List Char) : Bool :=
  isSafeCore MUTATING_BAD READ_ONLY_OK cypher

end App

namespace AppTest

/-- The deny regex alternatives of `MUTATING_BAD` in app_test.py. -/
def MUTATING_BAD : List KwPat :=
  [kw1 "create", kw1 "merge", kw1 "set", kw1 "delete", kw2 "detach" "delete",
   kw1 "remove", kw1 "drop", kwDot "apoc.", kw2Dot "call" "db."]

/-- The allow regex alternatives of `READ_ONLY_OK` in app_test.py (no
PROFILE and no EXPLAIN). -/
def READ_ONLY_OK : List KwPat :=
  [kw1 "call", kw1 "match", kw2 "optional" "match", kw1 "with", kw1 "unwind",
   kw1 "return", kw1 "where", kw2 "order" "by", kw1 "limit", kw1 "skip",
   kw1 "union"]

/-- Model of `is_safe_cypher` in app_test.py. -/
def is_safe_cypher (cypher : List Char) : Bool :=
  isSafeCore MUTATING_BAD READ_ONLY_OK cypher

end AppTest

/-! Characterization of the deny-list scan -/

theorem searchFrom_cons (alts : List KwPat) (prev : Bool) (c : Char) (cs : List Char) :
    searchFrom alts prev (c :: cs) =
      ((!prev && alts.any (fun a => matchOneAlt a (c :: cs))) ||
        searchFrom alts (wordChar c) cs) := rfl

theorem searchFrom_iff (alts : List KwPat)
    (halts : ∀ a ∈ alts, matchOneAlt a [] = false) :
    ∀ (s : List Char) (prev : Bool),
      searchFrom alts prev s = true ↔
        ∃ l r, l ++ r = s ∧
          (!(prevWord prev l) && alts.any (fun a => matchOneAlt a r)) = true := by
  intro s
  induction s with
  | nil =>
    intro prev
    constructor
    · intro h; simp [searchFrom] at h
    · rintro ⟨l, r, hlr, hcond⟩
      rcases List.append_eq_nil.mp hlr with ⟨hl, hr⟩
      subst hl; subst hr
      rcases (Bool.and_eq_true _ _).mp hcond with ⟨-, hany⟩
      rcases List.any_eq_true.mp hany with ⟨a, ha, hma⟩
      rw [halts a ha] at hma
      exact (Bool.false_ne_true hma).elim
  | cons c cs ih =>
    intro prev
    rw [searchFrom_cons]
    constructor
    · intro h
      rcases (Bool.or_eq_true _ _).mp h with h1 | h2
      · exact ⟨[], c :: cs, rfl, by simpa [prevWord] using h1⟩
      · obtain ⟨l, r, hlr, hcond⟩ := (ih (wordChar c)).mp h2
        exact ⟨c :: l, r, by simp [hlr], by simpa [prevWord, List.foldl] using hcond⟩
    · rintro ⟨l, r, hlr, hcond⟩
      cases l with
      | nil =>
        simp only [List.nil_append] at hlr
        subst hlr
        exact (Bool.or_eq_true _ _).mpr (Or.inl (by simpa [prevWord] using hcond))
      | cons c0 l0 =>
        rw [List.cons_append] at hlr
        have hc : c0 = c := (List.cons.inj hlr).1
        have hlr0 : l0 ++ r = cs := (List.cons.inj hlr).2
        rw [hc] at hcond
        refine (Bool.or_eq_true _ _).mpr (Or.inr ?_)
        exact (ih (wordChar c)).mpr ⟨l0, r, hlr0, by simpa [prevWord, List.foldl] using hcond⟩

theorem denySearch_iff (alts : List KwPat)
    (halts : ∀ a ∈ alts, matchOneAlt a [] = false) (s : List Char) :
    denySearch alts s = true ↔ ∃ l r, l ++ r = s ∧ denyHit alts l r = true :=
  searchFrom_iff alts halts s false

theorem denyHit_false_of_search_false (alts : List KwPat)
    (halts : ∀ a ∈ alts, matchOneAlt a [] = false) (s : List Char)
    (h : denySearch alts s = false) :
    ∀ l r, l ++ r = s → denyHit alts l r = false := by
  intro l r hlr
  by_contra hne
  have hhit : denyHit alts l r = true := by
    revert hne; cases denyHit alts l r <;> simp
  have : denySearch alts s = true :=
    (denySearch_iff alts halts s).mpr ⟨l, r, hlr, hhit⟩
  rw [h] at this
  exact Bool.false_ne_true this

theorem app_deny_nonempty : ∀ a ∈ App.MUTATING_BAD, matchOneAlt a [] = false := by decide

theorem appTest_deny_nonempty : ∀ a ∈ AppTest.MUTATING_BAD, matchOneAlt a [] = false := by decide

/-! C1 and C2 -/

/-- C1: for every query string that contains, anywhere in its text (as a
word-bounded, case-insensitive occurrence, mid-line included), a
deny-listed mutating or administrative keyword of `MUTATING_BAD`,
`is_safe_cypher` of app.py returns `false`, regardless of what keywords
its lines begin with.  The occurrence is given as an explicit split
`s = l ++ r` with the keyword matching at the head of `r`. -/
theorem C1_deny_keyword_anywhere_rejects (s l r : List Char)
    (hsplit : l ++ r = s) (hhit : denyHit App.MUTATING_BAD l r = true) :
    App.is_safe_cypher s = false := by
  have hs : denySearch App.MUTATING_BAD s = true :=
    (denySearch_iff App.MUTATING_BAD app_deny_nonempty s).mpr ⟨l, r, hsplit, hhit⟩
  simp [App.is_safe_cypher, isSafeCore, hs]

/-- C1 witness: the candidate query of the scenario,
`MATCH (c:Case) DETACH DELETE c`, contains the deny-listed keyword
`DETACH DELETE` and is rejected. -/
theorem C1_witness :
    denyHit App.MUTATING_BAD (pystr "MATCH (c:Case) ") (pystr "DETACH DELETE c") = true ∧
    App.is_safe_cypher (pystr "MATCH (c:Case) DETACH DELETE c") = false :=
  ⟨by decide,
   C1_deny_keyword_anywhere_rejects (pystr "MATCH (c:Case) DETACH DELETE c")
     (pystr "MATCH (c:Case) ") (pystr "DETACH DELETE c") (by decide) (by decide)⟩

/-- C2: for every query string with no word-bounded occurrence of a
deny-listed keyword, all of whose non-empty stripped lines begin
(case-insensitively, after optional leading whitespace) with an
allow-listed read-only clause keyword, `is_safe_cypher` of app.py
returns `true`; a query with zero non-empty lines satisfies the second
hypothesis vacuously, so in particular the empty string is classified
safe (see the witness). -/
theorem C2_allowlisted_lines_accepted (s : List Char)
    (hdeny : ∀ l r, l ++ r = s → denyHit App.MUTATING_BAD l r = false)
    (hallow : ∀ l, l ∈ pyLines s → lineOk App.READ_ONLY_OK l = true) :
    App.is_safe_cypher s = true := by
  have hds : denySearch App.MUTATING_BAD s = false := by
    by_contra h
    have h1 : denySearch App.MUTATING_BAD s = true := by
      revert h; cases denySearch App.MUTATING_BAD s <;> simp
    obtain ⟨l, r, hlr, hhit⟩ :=
      (denySearch_iff App.MUTATING_BAD app_deny_nonempty s).mp h1
    rw [hdeny l r hlr] at hhit
    exact Bool.false_ne_true hhit
  simp only [App.is_safe_cypher, isSafeCore, hds, if_false, Bool.false_eq_true]
  exact List.all_eq_true.mpr hallow

/-- C2 witness: the empty query has no deny-listed keyword and no
non-empty line, and is (vacuously) classified safe. -/
theorem C2_witness : App.is_safe_cypher [] = true :=
  C2_allowlisted_lines_accepted []
    (fun l r hlr => by
      rcases List.append_eq_nil.mp hlr with ⟨hl, hr⟩
      subst hl; subst hr; decide)
    (fun l hl => by simp [pyLines, splitlines] at hl)

/-! C9: comparing the two validators -/

/-- Deny alternatives present in app.py but absent from app_test.py and
not subsumed by any alternative of app_test.py. -/
def appOnlyDeny : List KwPat := [kw2 "load" "csv", kw2 "call" "dbms"]

/-- The deny alternative of app.py that app_test.py subsumes through its
`CALL db.` alternative. -/
def dbIndexPat : KwPat := kw2Dot "call" "db.index."

/-- The allow alternatives present in app.py but absent from app_test.py. -/
def peAlts : List KwPat := [kw1 "profile", kw1 "explain"]

theorem list_all_congr {α : Type} (l : List α) (f g : α → Bool)
    (h : ∀ a ∈ l, f a = g a) : l.all f = l.all g := by
  induction l with
  | nil => rfl
  | cons x xs ih =>
    simp only [List.all_cons]
    rw [h x (by simp), ih (fun a ha => h a (by simp [ha]))]

theorem matchLit_append (p q s : List Char) :
    matchLit (p ++ q) s = (matchLit p s).bind (matchLit q) := by
  induction p generalizing s with
  | nil => simp [matchLit]
  | cons x xs ih =>
    cases s with
    | nil => simp [matchLit]
    | cons c cs =>
      simp only [List.cons_append, matchLit]
      by_cases h : matchChar x c = true
      · simp [h, ih]
      · simp [h]

theorem matchLit_cons_inv (p : Char) (ps s r : List Char)
    (h : matchLit (p :: ps) s = some r) :
    ∃ c cs, s = c :: cs ∧ matchChar p c = true ∧ matchLit ps cs = some r := by
  cases s with
  | nil => simp [matchLit] at h
  | cons c cs =>
    by_cases hm : matchChar p c = true
    · exact ⟨c, cs, rfl, hm, by simpa [matchLit, hm] using h⟩
    · simp [matchLit, hm] at h

theorem wordChar_of_matchChar_lower (p c : Char)
    (hp : 97 ≤ p.toNat ∧ p.toNat ≤ 122) (h : matchChar p c = true) :
    wordChar c = true := by
  simp only [matchChar, Bool.or_eq_true, Bool.and_eq_true, beq_iff_eq,
    decide_eq_true_eq] at h
  simp only [wordChar, Bool.or_eq_true, Bool.and_eq_true, beq_iff_eq,
    decide_eq_true_eq]
  omega

theorem matchToks_two (a b s : List Char) :
    matchToks [Tok.lit a, Tok.ws, Tok.lit b] s =
      (matchLit a s).bind (fun s1 =>
        match s1 with
        | [] => none
        | c :: cs => if spaceChar c then matchLit b (cs.dropWhile spaceChar) else none) := by
  cases hc : matchLit a s with
  | none => simp [matchToks, hc]
  | some s1 =>
    cases s1 with
    | nil => simp [matchToks, hc]
    | cons c cs =>
      by_cases hsp : spaceChar c = true
      · simp only [matchToks, hc, hsp, Option.bind_some, if_true]
      · simp [matchToks, hc, hsp]

theorem dbIndex_subsumed (s : List Char)
    (h : matchOneAlt dbIndexPat s = true) :
    matchOneAlt (kw2Dot "call" "db.") s = true := by
  unfold dbIndexPat at h
  unfold matchOneAlt kw2Dot at h ⊢
  rw [matchToks_two] at h ⊢
  cases hc : matchLit "call".data s with
  | none => simp [hc] at h
  | some s1 =>
    simp only [hc, Option.some_bind] at h ⊢
    cases s1 with
    | nil => simp at h
    | cons c cs =>
      by_cases hsp : spaceChar c = true
      · simp only [hsp, if_true] at h ⊢
        have hsplit : ∀ t, matchLit ['d', 'b', '.', 'i', 'n', 'd', 'e', 'x', '.'] t =
            (matchLit ['d', 'b', '.'] t).bind (matchLit ['i', 'n', 'd', 'e', 'x', '.']) :=
          fun t => matchLit_append ['d', 'b', '.'] ['i', 'n', 'd', 'e', 'x', '.'] t
        rw [hsplit] at h
        cases hd : matchLit ['d', 'b', '.'] (cs.dropWhile spaceChar) with
        | none => simp [hd] at h
        | some mid =>
          simp only [hd, Option.some_bind] at h
          cases hrest : matchLit ['i', 'n', 'd', 'e', 'x', '.'] mid with
          | none => simp [hrest] at h
          | some rest =>
            obtain ⟨c2, cs2, hmid, hmc, -⟩ :=
              matchLit_cons_inv 'i' ['n', 'd', 'e', 'x', '.'] mid rest hrest
            have hw : wordChar c2 = true :=
              wordChar_of_matchChar_lower 'i' c2 (by decide) hmc
            rw [hmid]
            simp [hw]
      · simp [hsp] at h

theorem deny_pointwise (t : List Char) :
    App.MUTATING_BAD.any (fun a => matchOneAlt a t) =
      (AppTest.MUTATING_BAD.any (fun a => matchOneAlt a t) ||
        appOnlyDeny.any (fun a => matchOneAlt a t) ||
        [dbIndexPat].any (fun a => matchOneAlt a t)) := by
  simp only [App.MUTATING_BAD, AppTest.MUTATING_BAD, appOnlyDeny, dbIndexPat,
    List.any_cons, List.any_nil]
  rw [Bool.eq_iff_iff]
  simp only [Bool.or_eq_true, Bool.or_false]
  tauto

theorem allow_pointwise (l : List Char) :
    lineOk App.READ_ONLY_OK l =
      (lineOk AppTest.READ_ONLY_OK l || lineOk peAlts l) := by
  simp only [lineOk, App.READ_ONLY_OK, AppTest.READ_ONLY_OK, peAlts,
    List.any_cons, List.any_nil]
  rw [Bool.eq_iff_iff]
  simp only [Bool.or_eq_true, Bool.or_false]
  tauto

theorem searchFrom_congr_or (A B C : List KwPat)
    (h : ∀ t, A.any (fun a => matchOneAlt a t) =
      (B.any (fun a => matchOneAlt a t) || C.any (fun a => matchOneAlt a t))) :
    ∀ (s : List Char) (prev : Bool),
      searchFrom A prev s = (searchFrom B prev s || searchFrom C prev s) := by
  intro s
  induction s with
  | nil => intro prev; simp [searchFrom]
  | cons c cs ih =>
    intro prev
    rw [searchFrom_cons, searchFrom_cons, searchFrom_cons, h (c :: cs), ih (wordChar c)]
    rw [Bool.eq_iff_iff]
    simp only [Bool.or_eq_true, Bool.and_eq_true]
    tauto

theorem searchFrom_mono (A B : List KwPat)
    (h : ∀ t, A.any (fun a => matchOneAlt a t) = true →
      B.any (fun a => matchOneAlt a t) = true) :
    ∀ (s : List Char) (prev : Bool),
      searchFrom A prev s = true → searchFrom B prev s = true := by
  intro s
  induction s with
  | nil => intro prev hs; simp [searchFrom] at hs
  | cons c cs ih =>
    intro prev hs
    rw [searchFrom_cons] at hs ⊢
    rcases (Bool.or_eq_true _ _).mp hs with h1 | h2
    · rcases (Bool.and_eq_true _ _).mp h1 with ⟨hp, ha⟩
      exact (Bool.or_eq_true _ _).mpr (Or.inl ((Bool.and_eq_true _ _).mpr ⟨hp, h (c :: cs) ha⟩))
    · exact (Bool.or_eq_true _ _).mpr (Or.inr (ih (wordChar c) h2))

theorem dbIndex_search_subsumed (s : List Char) (prev : Bool)
    (h : searchFrom [dbIndexPat] prev s = true) :
    searchFrom AppTest.MUTATING_BAD prev s = true := by
  refine searchFrom_mono [dbIndexPat] AppTest.MUTATING_BAD ?_ s prev h
  intro t ht
  have hone : matchOneAlt dbIndexPat t = true := by simpa using ht
  have := dbIndex_subsumed t hone
  refine List.any_eq_true.mpr ⟨kw2Dot "call" "db.", ?_, this⟩
  simp [AppTest.MUTATING_BAD]

/-- C9 counterexample: the two validators are not extensionally equal.
On `PROFILE MATCH (n) RETURN n`, app.py accepts (its allow list has
PROFILE) while app_test.py rejects (its allow list does not). -/
theorem C9_counterexample :
    App.is_safe_cypher (pystr "PROFILE MATCH (n) RETURN n") = true ∧
    AppTest.is_safe_cypher (pystr "PROFILE MATCH (n) RETURN n") = false :=
  ⟨by decide, by decide⟩

/-- C9 amended: the two validators agree on every query that has no
word-bounded occurrence of `LOAD CSV` or `CALL dbms` (the deny
alternatives only app.py has and app_test.py does not subsume; its
`CALL db.index.` alternative is subsumed by the `CALL db.` alternative
present in both) and none of whose non-empty stripped lines begins with
`PROFILE` or `EXPLAIN` (the allow alternatives only app.py has). -/
theorem C9_validators_agree_outside_divergence (s : List Char)
    (hdeny : denySearch appOnlyDeny s = false)
    (hallow : (pyLines s).all (fun l => !(lineOk peAlts l)) = true) :
    App.is_safe_cypher s = AppTest.is_safe_cypher s := by
  have hsplit1 : ∀ prev, searchFrom App.MUTATING_BAD prev s =
      (searchFrom AppTest.MUTATING_BAD prev s ||
        searchFrom (appOnlyDeny ++ [dbIndexPat]) prev s) := by
    intro prev
    refine searchFrom_congr_or _ _ _ ?_ s prev
    intro t
    rw [deny_pointwise t, List.any_append, Bool.or_assoc]
  have hsplit2 : ∀ prev, searchFrom (appOnlyDeny ++ [dbIndexPat]) prev s =
      (searchFrom appOnlyDeny prev s || searchFrom [dbIndexPat] prev s) :=
    fun prev => searchFrom_congr_or _ _ _ (fun t => List.any_append) s prev
  have hd : denySearch App.MUTATING_BAD s = denySearch AppTest.MUTATING_BAD s := by
    unfold denySearch at hdeny ⊢
    rw [hsplit1 false, hsplit2 false, hdeny, Bool.false_or]
    cases hidx : searchFrom [dbIndexPat] false s with
    | false => simp
    | true =>
      rw [dbIndex_search_subsumed s false hidx]
      simp
  unfold App.is_safe_cypher AppTest.is_safe_cypher isSafeCore
  rw [hd]
  cases hds : denySearch AppTest.MUTATING_BAD s with
  | true => simp
  | false =>
    simp only [Bool.false_eq_true, if_false]
    apply list_all_congr
    intro l hl
    have hpe : lineOk peAlts l = false := by
      have := List.all_eq_true.mp hallow l hl
      simpa using this
    rw [allow_pointwise l, hpe, Bool.or_false]

/-- C9 witness for the amended statement, at the query
`MATCH (n) RETURN n`, which satisfies both hypotheses. -/
theorem C9_witness :
    (denySearch appOnlyDeny (pystr "MATCH (n) RETURN n") = false ∧
     (pyLines (pystr "MATCH (n) RETURN n")).all
       (fun l => !(lineOk peAlts l)) = true) ∧
    App.is_safe_cypher (pystr "MATCH (n) RETURN n") =
      AppTest.is_safe_cypher (pystr "MATCH (n) RETURN n") :=
  ⟨⟨by decide, by decide⟩,
   C9_validators_agree_outside_divergence (pystr "MATCH (n) RETURN n")
     (by decide) (by decide)⟩

/-! Query repair engine: auto_fix_cypher and the template chain -/

/-- The ASCII apostrophe used as the string quote of the generated Cypher. -/
def sqc : Char := Char.ofNat 39

/-- Opening curly brace of the generated Cypher property maps. -/
def lbrace : Char := Char.ofNat 123

/-- Closing curly brace of the generated Cypher property maps. -/
def rbrace : Char := Char.ofNat 125

/-- Substring containment, the model of the Python `in` operator on strings. -/
def containsSub (pat : List Char) : List Char → Bool
  | [] => pat.isEmpty
  | c :: cs => pat.isPrefixOf (c :: cs) || containsSub pat cs

/-- The whitespace-run collapse of the fallback step of `auto_fix_cypher`
(`re.sub` of one-or-more whitespace with one space); `inRun` records
whether the previous character was part of a whitespace run. -/
def collapseGo (inRun : Bool) : List Char → List Char
  | [] => []
  | c :: cs =>
    if spaceChar c then
      if inRun then collapseGo true cs else ' ' :: collapseGo true cs
    else c :: collapseGo false cs

def collapseWs (s : List Char) : List Char := collapseGo false s

/-- Character class of the UNWIND expression group of the repair regex
(word characters, dot, and square brackets). -/
def exprChar (c : Char) : Bool :=
  wordChar c || c.toNat == 46 || c.toNat == 91 || c.toNat == 93

/-- Match one-or-more whitespace, maximally. -/
def ws1 : List Char → Option (List Char)
  | [] => none
  | c :: cs => if spaceChar c then some (cs.dropWhile spaceChar) else none

/-- Take a non-empty maximal run of characters in class `p`. -/
def run1 (p : Char → Bool) (s : List Char) : Option (List Char × List Char) :=
  match s.takeWhile p with
  | [] => none
  | c :: cs => some (c :: cs, s.dropWhile p)

/-- Try to match the repair pattern (UNWIND, whitespace, expression
group, whitespace, AS, whitespace, variable group, whitespace, WHERE,
whitespace; case-insensitive) at the head of the input, returning the
two captured groups and the input after the match. -/
def tryUnwindAt (s : List Char) : Option (List Char × List Char × List Char) :=
  (matchLit (pystr "unwind") s).bind fun s1 =>
  (ws1 s1).bind fun s2 =>
  (run1 exprChar s2).bind fun es =>
  (ws1 es.2).bind fun s4 =>
  (matchLit (pystr "as") s4).bind fun s5 =>
  (ws1 s5).bind fun s6 =>
  (run1 wordChar s6).bind fun vs =>
  (ws1 vs.2).bind fun s8 =>
  (matchLit (pystr "where") s8).bind fun s9 =>
  (ws1 s9).bind fun s10 =>
  some (es.1, vs.1, s10)

/-- The replacement emitted by the repair rule: the UNWIND clause, a WITH
projection (re-including `c` when the query binds the case pattern),
and the WHERE keyword. -/
def unwindRepl (withC : Bool) (expr v : List Char) : List Char :=
  pystr "UNWIND " ++ expr ++ pystr " AS " ++ v ++ pystr " WITH " ++
    (if withC then pystr "c, " else []) ++ v ++ pystr " WHERE "

/-- The gsub scan of the repair rule: at each position try the pattern;
on a match emit the replacement and continue after the consumed text.
`fuel` bounds the recursion and is always at least the length of the
remaining input when called with the full length. -/
def unwindGo (withC : Bool) : Nat → List Char → List Char
  | _, [] => []
  | 0, s => s
  | Nat.succ n, c :: cs =>
    match tryUnwindAt (c :: cs) with
    | some (expr, v, rest) => unwindRepl withC expr v ++ unwindGo withC n rest
    | none => c :: unwindGo withC n cs

/-- Match of the case-binding pattern (open paren, `c`, optional
whitespace, colon, optional whitespace, `Case`, close paren;
case-insensitive) at the head of the input. -/
def casePatAt : List Char → Bool
  | [] => false
  | c1 :: rest =>
    if c1.toNat == 40 then
      match rest with
      | [] => false
      | c2 :: rest2 =>
        if matchChar 'c' c2 then
          match rest2.dropWhile spaceChar with
          | [] => false
          | c3 :: rest3 =>
            if c3.toNat == 58 then
              match matchLit (pystr "case") (rest3.dropWhile spaceChar) with
              | some (c4 :: _) => c4.toNat == 41
              | _ => false
            else false
        else false
    else false

/-- Unanchored search for the case-binding pattern. -/
def hasCasePat : List Char → Bool
  | [] => false
  | c :: cs => casePatAt (c :: cs) || hasCasePat cs

/-- Lazy leftmost match of the group between a fixed head and a fixed
tail pattern, with no newline inside the group: `acc` holds the group
read so far, reversed order not needed since we append. -/
def lazyGroup (post : List Char) (acc : List Char) : List Char → Option (List Char)
  | [] => none
  | c :: cs =>
    if c.toNat == 10 then none
    else if post.isPrefixOf cs then some (acc ++ [c])
    else lazyGroup post (acc ++ [c]) cs

/-- Leftmost search for the pattern head, lazy non-empty group, pattern
tail; the model of the group-extracting searches of the source. -/
def reSearchBetween (pre post : List Char) : List Char → Option (List Char)
  | [] => none
  | c :: cs =>
    match (if pre.isPrefixOf (c :: cs) then
             lazyGroup post [] ((c :: cs).drop pre.length)
           else none) with
    | some g => some g
    | none => reSearchBetween pre post cs

/-- Object-name cleanup of the templates in the route: strip, then
remove apostrophes. -/
def cleanQ (g : List Char) : List Char :=
  (pstrip g).filter (fun c => c.toNat != 39)

/-- Object-name cleanup of the templates in `auto_fix_cypher`: strip,
then remove apostrophes and curly double quotes. -/
def cleanA (g : List Char) : List Char :=
  (pstrip g).filter (fun c => c.toNat != 39 && c.toNat != 8221 && c.toNat != 8220)

def namePropOf (n : List Char) : List Char :=
  [lbrace] ++ pystr "name:" ++ [sqc] ++ n ++ [sqc] ++ [rbrace]

def formulaPropOf (f : List Char) : List Char :=
  [lbrace] ++ pystr "formula:" ++ [sqc] ++ f ++ [sqc] ++ [rbrace]

/-- Template: zhengxing is X, asking for prescriptions. -/
def tpl_zx_prescription (zname : List Char) : List Char :=
  pystr "MATCH (c:Case)-[:HAS_ZHENGXING]->(z:ZhengXing " ++ namePropOf zname ++
  pystr ") MATCH (c)-[:HAS_PRESCRIPTION]->(p:Prescription) RETURN p.formula AS 处方, count(DISTINCT c) AS 频次 ORDER BY 频次 DESC"

/-- Template: zhengxing is X, asking for herbs. -/
def tpl_zx_herb (zname : List Char) : List Char :=
  pystr "MATCH (c:Case)-[:HAS_ZHENGXING]->(z:ZhengXing " ++ namePropOf zname ++
  pystr ") MATCH (c)-[:HAS_PRESCRIPTION]->(p:Prescription)-[:CONTAINS_HERB]->(h:Herb) RETURN h.name AS 中药, count(DISTINCT c) AS 频次 ORDER BY 频次 DESC"

/-- Template: zhengxing is X, asking for dose and preparation of herb Y. -/
def tpl_zx_herb_dose (zname hname : List Char) : List Char :=
  pystr "MATCH (c:Case)-[:HAS_ZHENGXING]->(z:ZhengXing " ++ namePropOf zname ++
  pystr ") MATCH (c)-[:HAS_PRESCRIPTION]->(p:Prescription)-[r:CONTAINS_HERB]->(h:Herb " ++
  namePropOf hname ++
  pystr ") RETURN DISTINCT h.name AS 中药, r.dose AS 剂量, r.prep AS 炮制方法"

/-- Template: formula is X, asking for zhengxing. -/
def tpl_formula_zx (formula : List Char) : List Char :=
  pystr "MATCH (c:Case)-[:HAS_PRESCRIPTION]->(p:Prescription " ++ formulaPropOf formula ++
  pystr ") MATCH (c)-[:HAS_ZHENGXING]->(z:ZhengXing) RETURN z.name AS 证型, count(DISTINCT c) AS 频次 ORDER BY 频次 DESC"

/-- Template: formula is X, asking for diseases. -/
def tpl_formula_disease (formula : List Char) : List Char :=
  pystr "MATCH (c:Case)-[:HAS_PRESCRIPTION]->(p:Prescription " ++ formulaPropOf formula ++
  pystr ") MATCH (c)-[:HAS_DIAGNOSIS]->(d:Diagnosis) RETURN d.name AS 疾病, count(DISTINCT c) AS 频次 ORDER BY 频次 DESC"

/-- Template: formula is X, asking for herbs. -/
def tpl_formula_herb (formula : List Char) : List Char :=
  pystr "MATCH (c:Case)-[:HAS_PRESCRIPTION]->(p:Prescription " ++ formulaPropOf formula ++
  pystr ")-[:CONTAINS_HERB]->(h:Herb) RETURN h.name AS 中药, count(DISTINCT c) AS 频次 ORDER BY 频次 DESC"

/-- Template: disease is X, asking for herbs. -/
def tpl_disease_herb (dname : List Char) : List Char :=
  pystr "MATCH (c:Case)-[:HAS_DIAGNOSIS]->(d:Diagnosis " ++ namePropOf dname ++
  pystr ") MATCH (c)-[:HAS_PRESCRIPTION]->(p:Prescription)-[:CONTAINS_HERB]->(h:Herb) RETURN h.name AS 中药, count(DISTINCT c) AS 频次 ORDER BY 频次 DESC"

/-- Template: disease is X, asking for zhengxing. -/
def tpl_disease_zx (dname : List Char) : List Char :=
  pystr "MATCH (c:Case)-[:HAS_DIAGNOSIS]->(d:Diagnosis " ++ namePropOf dname ++
  pystr ") MATCH (c)-[:HAS_ZHENGXING]->(z:ZhengXing) RETURN z.name AS 证型, count(DISTINCT c) AS 频次 ORDER BY 频次 DESC"

/-- Model of `auto_fix_cypher` in app.py: strip, rewrite the
unwind-then-filter fragments, then either return one of the two
question-template outputs (matched on the original argument) or the
whitespace-collapsed rewritten text. -/
def auto_fix_cypher (cql : List Char) : List Char :=
  let fixed0 := pstrip cql
  let fixed1 := unwindGo (hasCasePat fixed0) fixed0.length fixed0
  let zx :=
    match reSearchBetween (pystr "证型为") (pystr "的案例中") cql with
    | some g =>
      if containsSub (pystr "药方") cql || containsSub (pystr "处方") cql then
        some (tpl_zx_prescription (cleanA g))
      else if containsSub (pystr "中药") cql then
        some (tpl_zx_herb (cleanA g))
      else none
    | none => none
  match zx with
  | some t => t
  | none =>
    match reSearchBetween (pystr "药方为") (pystr "的案例中") cql with
    | some g => tpl_formula_zx (cleanA g)
    | none => collapseWs fixed1

/-- Character class of the herb-name group of template eight (anything
except whitespace, comma, full-width comma, full stop, and the particle
de). -/
def herbClassChar (c : Char) : Bool :=
  !(spaceChar c || c.toNat == 44 || c == '，' || c == '。' || c == '的')

/-- Leftmost match of the herb-name pattern of template eight. -/
def herbSearch : List Char → Option (List Char)
  | [] => none
  | c :: cs =>
    if (pystr "中药").isPrefixOf (c :: cs) then
      match (((c :: cs).drop 2).dropWhile spaceChar).takeWhile herbClassChar with
      | [] => herbSearch cs
      | h :: hs => some (h :: hs)
    else herbSearch cs

/-- Whether a trailing-qualifier phrase starts here (an optional particle
de followed by one of the qualifier words, or a qualifier word). -/
def qualWordAt (s : List Char) : Bool :=
  [pystr "剂量", pystr "炮制", pystr "方法", pystr "和", pystr "及"].any
    (fun q => q.isPrefixOf s)

/-- Truncate the herb name at the leftmost trailing-qualifier phrase
(the cleanup sub of template eight, whose pattern consumes the rest). -/
def truncQual : List Char → List Char
  | [] => []
  | c :: cs =>
    if (c == '的' && qualWordAt cs) || qualWordAt (c :: cs) then []
    else c :: truncQual cs

/-- Model of the template chain of the `/ask` route in app.py (the
if/elif chain over the question text): returns the templated query, or
none when no template condition fires or a fired condition fails to
extract its object names. -/
def templateFor (query : List Char) : Option (List Char) :=
  if containsSub (pystr "证型为") query &&
     (containsSub (pystr "药方") query || containsSub (pystr "处方") query) then
    (reSearchBetween (pystr "证型为") (pystr "的案例中") query).map
      (fun g => tpl_zx_prescription (cleanQ g))
  else if containsSub (pystr "证型为") query && containsSub (pystr "中药") query &&
     !containsSub (pystr "剂量") query && !containsSub (pystr "炮制") query then
    (reSearchBetween (pystr "证型为") (pystr "的案例中") query).map
      (fun g => tpl_zx_herb (cleanQ g))
  else if containsSub (pystr "证型为") query && containsSub (pystr "中药") query &&
     (containsSub (pystr "剂量") query || containsSub (pystr "炮制") query) then
    match reSearchBetween (pystr "证型为") (pystr "的案例中") query, herbSearch query with
    | some g1, some h => some (tpl_zx_herb_dose (cleanQ g1) (truncQual (pstrip h)))
    | _, _ => none
  else if containsSub (pystr "药方为") query && containsSub (pystr "证型") query then
    (reSearchBetween (pystr "药方为") (pystr "的案例中") query).map
      (fun g => tpl_formula_zx (cleanQ g))
  else if containsSub (pystr "药方为") query &&
     (containsSub (pystr "疾病") query || containsSub (pystr "病名") query) then
    (reSearchBetween (pystr "药方为") (pystr "的案例中") query).map
      (fun g => tpl_formula_disease (cleanQ g))
  else if containsSub (pystr "药方为") query &&
     (containsSub (pystr "中药") query || containsSub (pystr "药物") query) then
    (reSearchBetween (pystr "药方为") (pystr "的案例中") query).map
      (fun g => tpl_formula_herb (cleanQ g))
  else if containsSub (pystr "疾病为") query && containsSub (pystr "中药") query then
    (reSearchBetween (pystr "疾病为") (pystr "的案例中") query).map
      (fun g => tpl_disease_herb (cleanQ g))
  else if containsSub (pystr "疾病为") query && containsSub (pystr "证型") query then
    (reSearchBetween (pystr "疾病为") (pystr "的案例中") query).map
      (fun g => tpl_disease_zx (cleanQ g))
  else none

/-- The final candidate query of one `/ask` request: the template output
when the chain fired, otherwise the repaired raw generator output. -/
def finalCypher (query raw : List Char) : List Char :=
  match templateFor query with
  | some c => c
  | none => auto_fix_cypher raw

/-- C4: template override is a function of the question text alone.  The
template chain matches on the literal question and never on the
generated candidate: whenever a template fires on question `q`, the
final query is the same canonical templated query for every raw
generator output, so submitting the same question twice yields the
identical canonical query both times. -/
theorem C4_template_override_depends_only_on_question (q raw1 raw2 c : List Char)
    (h : templateFor q = some c) :
    finalCypher q raw1 = finalCypher q raw2 ∧ finalCypher q raw1 = c := by
  unfold finalCypher
  rw [h]
  exact ⟨rfl, rfl⟩

/-- C4 witness: the scenario question about prescriptions for the
zhengxing lung-heat matches the first template; two different raw
candidates (one of them destructive) both yield the canonical query. -/
theorem C4_witness :
    templateFor (pystr "在证型为肺热的案例中有哪些药方") =
      some (tpl_zx_prescription (pystr "肺热")) ∧
    finalCypher (pystr "在证型为肺热的案例中有哪些药方")
        (pystr "MATCH (c:Case) DETACH DELETE c") =
      finalCypher (pystr "在证型为肺热的案例中有哪些药方") (pystr "RETURN 1") ∧
    finalCypher (pystr "在证型为肺热的案例中有哪些药方")
        (pystr "MATCH (c:Case) DETACH DELETE c") =
      tpl_zx_prescription (pystr "肺热") :=
  ⟨by decide,
   (C4_template_override_depends_only_on_question
      (pystr "在证型为肺热的案例中有哪些药方")
      (pystr "MATCH (c:Case) DETACH DELETE c") (pystr "RETURN 1")
      (tpl_zx_prescription (pystr "肺热")) (by decide)).1,
   (C4_template_override_depends_only_on_question
      (pystr "在证型为肺热的案例中有哪些药方")
      (pystr "MATCH (c:Case) DETACH DELETE c") (pystr "RETURN 1")
      (tpl_zx_prescription (pystr "肺热")) (by decide)).2⟩

/-! C6: the unwind-then-filter repair rule -/

/-- Case-insensitive substring containment (occurrence of a lowercase
pattern at some position, matched by `matchLit`). -/
def containsCI (pat : List Char) : List Char → Bool
  | [] => (matchLit pat []).isSome
  | c :: cs => (matchLit pat (c :: cs)).isSome || containsCI pat cs

theorem dropWhile_not_head (p : Char → Bool) (l : List Char)
    (h : ∀ c, l.head? = some c → p c = false) : l.dropWhile p = l := by
  cases l with
  | nil => rfl
  | cons c cs => simp [List.dropWhile, h c rfl]

theorem takeWhile_all_append (p : Char → Bool) (l r : List Char)
    (hl : l.all p = true) (hr : ∀ c, r.head? = some c → p c = false) :
    (l ++ r).takeWhile p = l ∧ (l ++ r).dropWhile p = r := by
  induction l with
  | nil =>
    refine ⟨?_, dropWhile_not_head p r hr⟩
    cases r with
    | nil => rfl
    | cons c cs => simp [List.takeWhile, hr c rfl]
  | cons c cs ih =>
    have hb : (p c && cs.all p) = true := by rw [← List.all_cons]; exact hl
    rcases (Bool.and_eq_true _ _).mp hb with ⟨h1, h2⟩
    obtain ⟨ht, hd⟩ := ih h2
    constructor
    · simp [List.takeWhile, h1, ht]
    · simp [List.dropWhile, h1, hd]

theorem matchLit_extend_noneU (pat : List Char)
    (hpat : ∀ p ∈ pat, matchChar p 'U' = false) :
    ∀ (u X : List Char), matchLit pat u = none → X.head? = some 'U' →
      matchLit pat (u ++ X) = none := by
  intro u
  induction u generalizing pat with
  | nil =>
    intro X hu hX
    cases pat with
    | nil => simp [matchLit] at hu
    | cons p ps =>
      cases X with
      | nil => simp at hX
      | cons x xs =>
        have hx : x = 'U' := by simpa using hX
        subst hx
        simp [matchLit, hpat p (by simp)]
  | cons c u2 ih =>
    intro X hu hX
    cases pat with
    | nil => simp [matchLit] at hu
    | cons p ps =>
      by_cases hm : matchChar p c = true
      · have hu2 : matchLit ps u2 = none := by simpa [matchLit, hm] using hu
        have := ih ps (fun q hq => hpat q (by simp [hq])) X hu2 hX
        simpa [matchLit, hm] using this
      · simp [matchLit, hm]

/-- The keyword pattern of the repair rule does not overlap itself: a
match cannot start inside a text that has no occurrence and extend into
an appended text starting with the letter U. -/
theorem unwind_no_span (u X : List Char) (hne : u ≠ [])
    (hu : matchLit (pystr "unwind") u = none) (hX : X.head? = some 'U') :
    matchLit (pystr "unwind") (u ++ X) = none := by
  have hP : pystr "unwind" = 'u' :: pystr "nwind" := rfl
  cases u with
  | nil => exact absurd rfl hne
  | cons c u2 =>
    rw [hP] at hu ⊢
    by_cases hm : matchChar 'u' c = true
    · have hu2 : matchLit (pystr "nwind") u2 = none := by simpa [matchLit, hm] using hu
      have := matchLit_extend_noneU (pystr "nwind") (by decide) u2 X hu2 hX
      simpa [matchLit, hm] using this
    · simp [matchLit, hm]

theorem tryUnwindAt_none_of (s : List Char)
    (h : matchLit (pystr "unwind") s = none) : tryUnwindAt s = none := by
  simp [tryUnwindAt, h]

theorem containsCI_cons_split (pat c cs)
    (h : containsCI pat (c :: cs) = false) :
    matchLit pat (c :: cs) = none ∧ containsCI pat cs = false := by
  have := (Bool.or_eq_true (matchLit pat (c :: cs)).isSome (containsCI pat cs))
  constructor
  · cases hm : matchLit pat (c :: cs) with
    | none => rfl
    | some r => simp [containsCI, hm] at h
  · cases hc : containsCI pat cs with
    | false => rfl
    | true => simp [containsCI, hc] at h

/-- Scanning a span-free text emits it unchanged. -/
theorem unwindGo_no_match (wc : Bool) :
    ∀ (s : List Char) (n : Nat), containsCI (pystr "unwind") s = false →
      s.length ≤ n → unwindGo wc n s = s := by
  intro s
  induction s with
  | nil => intro n _ _; cases n <;> rfl
  | cons c cs ih =>
    intro n hc hn
    obtain ⟨h1, h2⟩ := containsCI_cons_split (pystr "unwind") c cs hc
    cases n with
    | zero => simp at hn
    | succ m =>
      have hnone := tryUnwindAt_none_of (c :: cs) h1
      have hm : cs.length ≤ m := by simpa using hn
      simp only [unwindGo, hnone]
      rw [ih m h2 hm]

/-- Scanning through an occurrence-free prefix emits it unchanged and
continues on the rest (which starts with the letter U, so no match can
straddle the boundary). -/
theorem unwindGo_pass_head (wc : Bool) :
    ∀ (u : List Char) (n : Nat) (X : List Char),
      containsCI (pystr "unwind") u = false →
      X.head? = some 'U' →
      u.length + X.length ≤ n →
      unwindGo wc n (u ++ X) = u ++ unwindGo wc (n - u.length) X := by
  intro u
  induction u with
  | nil => intro n X _ _ _; simp
  | cons c u2 ih =>
    intro n X hc hX hn
    obtain ⟨h1, h2⟩ := containsCI_cons_split (pystr "unwind") c u2 hc
    cases n with
    | zero => simp at hn
    | succ m =>
      have hspan : matchLit (pystr "unwind") ((c :: u2) ++ X) = none :=
        unwind_no_span (c :: u2) X (by simp) h1 hX
      have hnone : tryUnwindAt (c :: (u2 ++ X)) = none :=
        tryUnwindAt_none_of (c :: (u2 ++ X)) (by simpa [List.cons_append] using hspan)
      have hm : u2.length + X.length ≤ m := by
        simp only [List.length_cons] at hn
        omega
      have hrec := ih m X h2 hX hm
      simp only [List.cons_append, unwindGo, List.append_eq]
      simp only [hnone]
      rw [hrec]
      have harith : m + 1 - (c :: u2).length = m - u2.length := by
        simp only [List.length_cons]
        omega
      rw [harith]

theorem not_space_of_exprChar (c : Char) (h : exprChar c = true) :
    spaceChar c = false := by
  cases hs : spaceChar c with
  | false => rfl
  | true =>
    exfalso
    simp only [exprChar, wordChar, Bool.or_eq_true, Bool.and_eq_true,
      beq_iff_eq, decide_eq_true_eq] at h
    simp only [spaceChar, Bool.or_eq_true, beq_iff_eq] at hs
    omega

theorem not_space_of_wordChar (c : Char) (h : wordChar c = true) :
    spaceChar c = false := by
  cases hs : spaceChar c with
  | false => rfl
  | true =>
    exfalso
    simp only [wordChar, Bool.or_eq_true, Bool.and_eq_true,
      beq_iff_eq, decide_eq_true_eq] at h
    simp only [spaceChar, Bool.or_eq_true, beq_iff_eq] at hs
    omega

theorem run1_all_append (p : Char → Bool) (l r : List Char) (hne : l ≠ [])
    (hl : l.all p = true) (hr : ∀ c, r.head? = some c → p c = false) :
    run1 p (l ++ r) = some (l, r) := by
  obtain ⟨ht, hd⟩ := takeWhile_all_append p l r hl hr
  unfold run1
  rw [ht, hd]
  cases l with
  | nil => exact absurd rfl hne
  | cons c cs => rfl

theorem ws1_space_cons (t : List Char)
    (h : ∀ c, t.head? = some c → spaceChar c = false) :
    ws1 (' ' :: t) = some t := by
  simp [ws1, dropWhile_not_head spaceChar t h, show spaceChar ' ' = true from by decide]

theorem tryUnwindAt_frag (expr v cond : List Char)
    (he : expr ≠ []) (heC : expr.all exprChar = true)
    (hv : v ≠ []) (hvC : v.all wordChar = true)
    (hc0 : ∀ c, cond.head? = some c → spaceChar c = false) :
    tryUnwindAt (pystr "UNWIND " ++ (expr ++ (pystr " AS " ++
        (v ++ (pystr " WHERE " ++ cond))))) = some (expr, v, cond) := by
  have hexprHd : ∀ c,
      (expr ++ (pystr " AS " ++ (v ++ (pystr " WHERE " ++ cond)))).head? = some c →
        spaceChar c = false := by
    cases expr with
    | nil => exact absurd rfl he
    | cons e es =>
      intro c hc
      have hce : e = c := by simpa using hc
      have hone : exprChar e = true :=
        ((Bool.and_eq_true _ _).mp (by rw [← List.all_cons]; exact heC)).1
      rw [← hce]
      exact not_space_of_exprChar e hone
  have hvHd : ∀ c, (v ++ (pystr " WHERE " ++ cond)).head? = some c →
      spaceChar c = false := by
    cases v with
    | nil => exact absurd rfl hv
    | cons e es =>
      intro c hc
      have hce : e = c := by simpa using hc
      have hone : wordChar e = true :=
        ((Bool.and_eq_true _ _).mp (by rw [← List.all_cons]; exact hvC)).1
      rw [← hce]
      exact not_space_of_wordChar e hone
  have h1 : matchLit (pystr "unwind")
      (pystr "UNWIND " ++ (expr ++ (pystr " AS " ++ (v ++ (pystr " WHERE " ++ cond))))) =
      some (' ' :: (expr ++ (pystr " AS " ++ (v ++ (pystr " WHERE " ++ cond))))) := rfl
  have h2 : ws1 (' ' :: (expr ++ (pystr " AS " ++ (v ++ (pystr " WHERE " ++ cond))))) =
      some (expr ++ (pystr " AS " ++ (v ++ (pystr " WHERE " ++ cond)))) :=
    ws1_space_cons _ hexprHd
  have h3 : run1 exprChar (expr ++ (pystr " AS " ++ (v ++ (pystr " WHERE " ++ cond)))) =
      some (expr, pystr " AS " ++ (v ++ (pystr " WHERE " ++ cond))) :=
    run1_all_append exprChar expr _ he heC (by
      intro c hc
      have h0 : (pystr " AS " ++ (v ++ (pystr " WHERE " ++ cond))).head? = some ' ' := rfl
      rw [h0] at hc
      rw [← Option.some.inj hc]
      decide)
  have h4 : ws1 (pystr " AS " ++ (v ++ (pystr " WHERE " ++ cond))) =
      some (pystr "AS " ++ (v ++ (pystr " WHERE " ++ cond))) := rfl
  have h5 : matchLit (pystr "as") (pystr "AS " ++ (v ++ (pystr " WHERE " ++ cond))) =
      some (' ' :: (v ++ (pystr " WHERE " ++ cond))) := rfl
  have h6 : ws1 (' ' :: (v ++ (pystr " WHERE " ++ cond))) =
      some (v ++ (pystr " WHERE " ++ cond)) :=
    ws1_space_cons _ hvHd
  have h7 : run1 wordChar (v ++ (pystr " WHERE " ++ cond)) =
      some (v, pystr " WHERE " ++ cond) :=
    run1_all_append wordChar v _ hv hvC (by
      intro c hc
      have h0 : (pystr " WHERE " ++ cond).head? = some ' ' := rfl
      rw [h0] at hc
      rw [← Option.some.inj hc]
      decide)
  have h8 : ws1 (pystr " WHERE " ++ cond) = some (pystr "WHERE " ++ cond) := rfl
  have h9 : matchLit (pystr "where") (pystr "WHERE " ++ cond) = some (' ' :: cond) := rfl
  have h10 : ws1 (' ' :: cond) = some cond := ws1_space_cons cond hc0
  unfold tryUnwindAt
  rw [h1]
  simp only [Option.some_bind]
  rw [h2]
  simp only [Option.some_bind]
  rw [h3]
  simp only [Option.some_bind]
  rw [h4]
  simp only [Option.some_bind]
  rw [h5]
  simp only [Option.some_bind]
  rw [h6]
  simp only [Option.some_bind]
  rw [h7]
  simp only [Option.some_bind]
  rw [h8]
  simp only [Option.some_bind]
  rw [h9]
  simp only [Option.some_bind]
  rw [h10]
  simp only [Option.some_bind]

theorem pstrip_eq_self (s : List Char)
    (h1 : ∀ c, s.head? = some c → spaceChar c = false)
    (h2 : ∀ c, s.getLast? = some c → spaceChar c = false) :
    pstrip s = s := by
  unfold pstrip
  rw [dropWhile_not_head spaceChar s h1]
  rw [dropWhile_not_head spaceChar s.reverse
    (fun c hc => h2 c (by rwa [List.head?_reverse s] at hc))]
  exact List.reverse_reverse s

theorem reSearchBetween_none (pre post : List Char) :
    ∀ s, containsSub pre s = false → reSearchBetween pre post s = none := by
  intro s
  induction s with
  | nil => intro _; rfl
  | cons c cs ih =>
    intro h
    have h1 : pre.isPrefixOf (c :: cs) = false := by
      cases hp : pre.isPrefixOf (c :: cs) with
      | false => rfl
      | true => simp [containsSub, hp] at h
    have h2 : containsSub pre cs = false := by
      cases hp : containsSub pre cs with
      | false => rfl
      | true => simp [containsSub, hp] at h
    simp [reSearchBetween, h1, ih h2]

/-- The full scan of the repair rule on a query made of an
occurrence-free prefix, one repairable unwind-then-filter fragment, and
an occurrence-free filter condition. -/
theorem unwindGo_structured (wc : Bool) (pre expr v cond : List Char)
    (hpreU : containsCI (pystr "unwind") pre = false)
    (he : expr ≠ []) (heC : expr.all exprChar = true)
    (hv : v ≠ []) (hvC : v.all wordChar = true)
    (hc0 : ∀ c, cond.head? = some c → spaceChar c = false)
    (hcondU : containsCI (pystr "unwind") cond = false)
    (n : Nat)
    (hn : (pre ++ (pystr "UNWIND " ++ (expr ++ (pystr " AS " ++
        (v ++ (pystr " WHERE " ++ cond)))))).length ≤ n) :
    unwindGo wc n (pre ++ (pystr "UNWIND " ++ (expr ++ (pystr " AS " ++
        (v ++ (pystr " WHERE " ++ cond)))))) =
      pre ++ (unwindRepl wc expr v ++ cond) := by
  have hXhead : (pystr "UNWIND " ++ (expr ++ (pystr " AS " ++
      (v ++ (pystr " WHERE " ++ cond))))).head? = some 'U' := rfl
  have hXlen : (pystr "UNWIND " ++ (expr ++ (pystr " AS " ++
      (v ++ (pystr " WHERE " ++ cond))))).length =
      18 + expr.length + v.length + cond.length := by
    simp [List.length_append, pystr]
    omega
  have hlen : pre.length + (pystr "UNWIND " ++ (expr ++ (pystr " AS " ++
      (v ++ (pystr " WHERE " ++ cond))))).length ≤ n := by
    rw [List.length_append] at hn
    exact hn
  rw [unwindGo_pass_head wc pre n _ hpreU hXhead hlen]
  congr 1
  have hkey : ∀ m, cond.length ≤ m →
      unwindGo wc (m + 1) (pystr "UNWIND " ++ (expr ++ (pystr " AS " ++
          (v ++ (pystr " WHERE " ++ cond))))) =
        unwindRepl wc expr v ++ cond := by
    intro m hm
    have hfrag2 : tryUnwindAt ('U' :: (pystr "NWIND " ++ (expr ++ (pystr " AS " ++
        (v ++ (pystr " WHERE " ++ cond)))))) = some (expr, v, cond) :=
      tryUnwindAt_frag expr v cond he heC hv hvC hc0
    have hshape : (pystr "UNWIND " ++ (expr ++ (pystr " AS " ++
        (v ++ (pystr " WHERE " ++ cond))))) =
        'U' :: (pystr "NWIND " ++ (expr ++ (pystr " AS " ++
          (v ++ (pystr " WHERE " ++ cond))))) := rfl
    rw [hshape]
    simp only [unwindGo, hfrag2]
    rw [unwindGo_no_match wc cond m hcondU hm]
  have hge : (pystr "UNWIND " ++ (expr ++ (pystr " AS " ++
      (v ++ (pystr " WHERE " ++ cond))))).length ≤ n - pre.length := by
    omega
  have hpos : 1 ≤ n - pre.length := by
    rw [hXlen] at hge
    omega
  have hsucc : n - pre.length = (n - pre.length - 1) + 1 := by omega
  rw [hsucc]
  apply hkey
  rw [hXlen] at hge
  omega

/-- C6: on every input consisting of an unwind-then-filter fragment in
the form the repair rule detects (the exact two-clause adjacency
`UNWIND expr AS var WHERE cond`), placed after an arbitrary prefix that
contains no further occurrence of the UNWIND keyword — and with no
question-template trigger present, since a fired template discards the
candidate — `auto_fix_cypher` rewrites the fragment so that a WITH
projection clause separates the UNWIND from the WHERE, and that
projection re-includes the case variable `c` exactly when the query
text contains the bound pattern `(c:Case)` (the final whitespace
collapse of the fallback step is applied to the result). -/
theorem C6_unwind_where_repair (q pre expr v cond : List Char)
    (hq : q = pre ++ (pystr "UNWIND " ++ (expr ++ (pystr " AS " ++
        (v ++ (pystr " WHERE " ++ cond))))))
    (hpre0 : ∀ c, pre.head? = some c → spaceChar c = false)
    (hpreU : containsCI (pystr "unwind") pre = false)
    (he : expr ≠ []) (heC : expr.all exprChar = true)
    (hv : v ≠ []) (hvC : v.all wordChar = true)
    (hcNe : cond ≠ [])
    (hc0 : ∀ c, cond.head? = some c → spaceChar c = false)
    (hcL : ∀ c, cond.getLast? = some c → spaceChar c = false)
    (hcondU : containsCI (pystr "unwind") cond = false)
    (hzx : containsSub (pystr "证型为") q = false)
    (hyf : containsSub (pystr "药方为") q = false) :
    auto_fix_cypher q =
      collapseWs (pre ++ (unwindRepl (hasCasePat q) expr v ++ cond)) := by
  have hqh : ∀ c, q.head? = some c → spaceChar c = false := by
    intro c hc
    cases hp : pre with
    | nil =>
      rw [hq, hp] at hc
      have h0 : (([] : List Char) ++ (pystr "UNWIND " ++ (expr ++ (pystr " AS " ++
          (v ++ (pystr " WHERE " ++ cond)))))).head? = some 'U' := rfl
      rw [h0] at hc
      rw [← Option.some.inj hc]
      decide
    | cons p ps =>
      rw [hq, hp] at hc
      have h0 : ((p :: ps) ++ (pystr "UNWIND " ++ (expr ++ (pystr " AS " ++
          (v ++ (pystr " WHERE " ++ cond)))))).head? = some p := rfl
      rw [h0] at hc
      rw [← Option.some.inj hc]
      exact hpre0 p (by rw [hp]; rfl)
  have hql : ∀ c, q.getLast? = some c → spaceChar c = false := by
    have g5 : (pystr " WHERE " ++ cond) ≠ [] :=
      fun h => hcNe (List.append_eq_nil.mp h).2
    have g4 : (v ++ (pystr " WHERE " ++ cond)) ≠ [] :=
      fun h => g5 (List.append_eq_nil.mp h).2
    have g3 : (pystr " AS " ++ (v ++ (pystr " WHERE " ++ cond))) ≠ [] :=
      fun h => g4 (List.append_eq_nil.mp h).2
    have g2 : (expr ++ (pystr " AS " ++ (v ++ (pystr " WHERE " ++ cond)))) ≠ [] :=
      fun h => g3 (List.append_eq_nil.mp h).2
    have g1 : (pystr "UNWIND " ++ (expr ++ (pystr " AS " ++
        (v ++ (pystr " WHERE " ++ cond))))) ≠ [] :=
      fun h => g2 (List.append_eq_nil.mp h).2
    intro c hc
    rw [hq] at hc
    rw [List.getLast?_append_of_ne_nil _ g1] at hc
    rw [List.getLast?_append_of_ne_nil _ g2] at hc
    rw [List.getLast?_append_of_ne_nil _ g3] at hc
    rw [List.getLast?_append_of_ne_nil _ g4] at hc
    rw [List.getLast?_append_of_ne_nil _ g5] at hc
    rw [List.getLast?_append_of_ne_nil _ hcNe] at hc
    exact hcL c hc
  have hstrip : pstrip q = q := pstrip_eq_self q hqh hql
  have hfix : unwindGo (hasCasePat q) q.length q =
      pre ++ (unwindRepl (hasCasePat q) expr v ++ cond) := by
    rw [hq]
    exact unwindGo_structured _ pre expr v cond hpreU he heC hv hvC
      hc0 hcondU _ (le_refl _)
  have hz1 : reSearchBetween (pystr "证型为") (pystr "的案例中") q = none :=
    reSearchBetween_none _ _ q hzx
  have hz2 : reSearchBetween (pystr "药方为") (pystr "的案例中") q = none :=
    reSearchBetween_none _ _ q hyf
  unfold auto_fix_cypher
  simp only [hstrip, hz1, hz2]
  rw [hfix]

/-- C6 witness: a concrete query binding the case pattern, with an
unwind-then-filter fragment; the repair inserts the projection and
re-includes the case variable. -/
theorem C6_witness :
    auto_fix_cypher (pystr "MATCH (c:Case) UNWIND c.symptoms AS s WHERE size(s) > 0") =
      collapseWs (pystr "MATCH (c:Case) " ++
        (unwindRepl
          (hasCasePat (pystr "MATCH (c:Case) UNWIND c.symptoms AS s WHERE size(s) > 0"))
          (pystr "c.symptoms") (pystr "s") ++ pystr "size(s) > 0")) ∧
    auto_fix_cypher (pystr "MATCH (c:Case) UNWIND c.symptoms AS s WHERE size(s) > 0") =
      pystr "MATCH (c:Case) UNWIND c.symptoms AS s WITH c, s WHERE size(s) > 0" :=
  ⟨C6_unwind_where_repair
      (pystr "MATCH (c:Case) UNWIND c.symptoms AS s WHERE size(s) > 0")
      (pystr "MATCH (c:Case) ") (pystr "c.symptoms") (pystr "s") (pystr "size(s) > 0")
      rfl
      (by
        intro c hc
        have h0 : (pystr "MATCH (c:Case) ").head? = some 'M' := rfl
        rw [h0] at hc
        rw [← Option.some.inj hc]
        decide)
      (by decide) (by decide) (by decide) (by decide) (by decide) (by decide)
      (by
        intro c hc
        have h0 : (pystr "size(s) > 0").head? = some 's' := rfl
        rw [h0] at hc
        rw [← Option.some.inj hc]
        decide)
      (by
        intro c hc
        have h0 : (pystr "size(s) > 0").getLast? = some '0' := rfl
        rw [h0] at hc
        rw [← Option.some.inj hc]
        decide)
      (by decide) (by decide) (by decide),
   by decide⟩

/-! Result formatter (format_answer of app.py) -/

/-- A scalar cell value of a result row (the claims only involve strings
and integers). -/
inductive JVal where
  | str (s : List Char)
  | int (n : Int)
deriving Repr, DecidableEq

/-- A result row: an ordered mapping from column name to value (the
model of a Python dict in insertion order). -/
abbrev Row := List (List Char × JVal)

/-- Model of the Python str conversion used inside the f-strings. -/
def pyStrOf : JVal → List Char
  | JVal.str s => s
  | JVal.int n => (toString n).data

/-- Model of the JSON rendering of one value (default separators; inputs
in scope contain no characters needing escapes). -/
def jsonValOf : JVal → List Char
  | JVal.str s => '\"' :: (s ++ ['\"'])
  | JVal.int n => (toString n).data

/-- Model of the json dumps of one row with the default separators. -/
def jsonDumps (r : Row) : List Char :=
  lbrace :: (List.intercalate (pystr ", ")
    (r.map (fun p => ('\"' :: (p.1 ++ ['\"'])) ++ pystr ": " ++ jsonValOf p.2)) ++ [rbrace])

/-- Key membership in a row, the model of the Python `in` on a dict. -/
def rowHasKey (k : List Char) (r : Row) : Bool := r.any (fun p => p.1 == k)

/-- Key lookup in a row. -/
def lookupRow (k : List Char) (r : Row) : Option JVal :=
  (r.find? (fun p => p.1 == k)).map (fun p => p.2)

/-- The frequency-count column label. -/
def pin : List Char := pystr "频次"

/-- One markdown table line: the first value of the row and its
frequency count; none models the KeyError or IndexError the source
would raise on a malformed row. -/
def tableRow (r : Row) : Option (List Char) :=
  match r.head?, lookupRow pin r with
  | some v0, some f =>
    some (pystr "| " ++ pyStrOf v0.2 ++ pystr " | " ++ pyStrOf f ++ pystr " |")
  | _, _ => none

def tableRows : List Row → Option (List (List Char))
  | [] => some []
  | r :: rs =>
    match tableRow r, tableRows rs with
    | some x, some xs => some (x :: xs)
    | _, _ => none

/-- Model of `format_answer` in app.py: the no-results message, the
two-column frequency table, or the bulleted list; returns none exactly
when the source would raise on a malformed row in the table branch. -/
def format_answer (query : List Char) (results : List Row) :
    Option (List Char × List Char) :=
  match results with
  | [] =>
    some (pystr "没有找到符合条件的结果（问题：" ++ query ++ pystr "）。", pystr "list")
  | r0 :: _ =>
    if rowHasKey pin r0 then
      (tableRows results).map (fun rows =>
        (pystr "针对你的问题「" ++ query ++ pystr "」，统计结果如下：\n\n" ++
          pystr "| 项目 | 频次 |\n|------|------|" ++ pystr "\n" ++
          List.intercalate (pystr "\n") rows, pystr "table"))
    else
      some (pystr "查询结果共 " ++ (toString results.length).data ++
        pystr " 条，详情如下：\n" ++
        List.intercalate (pystr "\n")
          (results.map (fun r => pystr "- " ++ jsonDumps r)),
        pystr "list")

/-- Total rendering of one table line, agreeing with `tableRow` on
well-formed rows. -/
def tableRowD (r : Row) : List Char :=
  pystr "| " ++ pyStrOf ((r.headD ([], JVal.int 0)).2) ++ pystr " | " ++
    pyStrOf ((lookupRow pin r).getD (JVal.int 0)) ++ pystr " |"

/-- The table text of a well-formed result set. -/
def tableText (q : List Char) (rs : List Row) : List Char :=
  pystr "针对你的问题「" ++ q ++ pystr "」，统计结果如下：\n\n" ++
    pystr "| 项目 | 频次 |\n|------|------|" ++ pystr "\n" ++
    List.intercalate (pystr "\n") (rs.map tableRowD)

/-- The bulleted list text of a result set (the query is unused in this
branch, as in the source). -/
def listText (_q : List Char) (rs : List Row) : List Char :=
  pystr "查询结果共 " ++ (toString rs.length).data ++ pystr " 条，详情如下：\n" ++
    List.intercalate (pystr "\n") (rs.map (fun r => pystr "- " ++ jsonDumps r))

/-- The fixed no-results message. -/
def noResText (q : List Char) : List Char :=
  pystr "没有找到符合条件的结果（问题：" ++ q ++ pystr "）。"

theorem tableRow_eq_some (r : Row) (h1 : r ≠ [])
    (h2 : (lookupRow pin r).isSome = true) :
    tableRow r = some (tableRowD r) := by
  cases r with
  | nil => exact absurd rfl h1
  | cons p ps =>
    cases hf : lookupRow pin (p :: ps) with
    | none => rw [hf] at h2; simp at h2
    | some f => simp [tableRow, tableRowD, hf]

theorem tableRows_eq (rs : List Row)
    (h : ∀ r ∈ rs, r ≠ [] ∧ (lookupRow pin r).isSome = true) :
    tableRows rs = some (rs.map tableRowD) := by
  induction rs with
  | nil => rfl
  | cons r rest ih =>
    have hr := h r (by simp)
    have hrec := ih (fun x hx => h x (by simp [hx]))
    simp [tableRows, tableRow_eq_some r hr.1 hr.2, hrec]

/-- C8: `format_answer` returns the fixed no-results message with shape
list on an empty result list; on a non-empty list whose first row has
the frequency-count column it returns the two-column markdown table
with one line per row in input order and shape table (on rows that are
well formed, i.e. non-empty and carrying the column, as the data model
guarantees for a uniform result set); otherwise one bulleted json line
per row, in input order, with shape list. -/
theorem C8_format_answer_cases (q : List Char) (rs : List Row) :
    (rs = [] → format_answer q rs = some (noResText q, pystr "list")) ∧
    (∀ r0 rest, rs = r0 :: rest → rowHasKey pin r0 = true →
      (∀ r ∈ rs, r ≠ [] ∧ (lookupRow pin r).isSome = true) →
      format_answer q rs = some (tableText q rs, pystr "table")) ∧
    (∀ r0 rest, rs = r0 :: rest → rowHasKey pin r0 = false →
      format_answer q rs = some (listText q rs, pystr "list")) := by
  refine ⟨?_, ?_, ?_⟩
  · intro h; subst h; rfl
  · intro r0 rest hrs hkey hrows
    subst hrs
    rw [tableText]
    simp only [format_answer, hkey, if_true]
    rw [tableRows_eq (r0 :: rest) hrows]
    rfl
  · intro r0 rest hrs hkey
    subst hrs
    simp only [format_answer, hkey, if_false, Bool.false_eq_true]
    rfl

/-- C8 witness: the two-row frequency example of the spec renders as a
table with both rows in input order, and the empty result set renders
the fixed no-results message with shape list. -/
theorem C8_witness :
    format_answer (pystr "问")
        [[(pystr "症状", JVal.str (pystr "咳嗽")), (pystr "频次", JVal.int 5)],
         [(pystr "症状", JVal.str (pystr "气喘")), (pystr "频次", JVal.int 3)]] =
      some (tableText (pystr "问")
        [[(pystr "症状", JVal.str (pystr "咳嗽")), (pystr "频次", JVal.int 5)],
         [(pystr "症状", JVal.str (pystr "气喘")), (pystr "频次", JVal.int 3)]],
        pystr "table") ∧
    tableText (pystr "问")
        [[(pystr "症状", JVal.str (pystr "咳嗽")), (pystr "频次", JVal.int 5)],
         [(pystr "症状", JVal.str (pystr "气喘")), (pystr "频次", JVal.int 3)]] =
      pystr "针对你的问题「问」，统计结果如下：\n\n| 项目 | 频次 |\n|------|------|\n| 咳嗽 | 5 |\n| 气喘 | 3 |" ∧
    format_answer (pystr "问") [] = some (noResText (pystr "问"), pystr "list") :=
  ⟨(C8_format_answer_cases (pystr "问") _).2.1 _ _ rfl (by decide) (by decide),
   by decide,
   (C8_format_answer_cases (pystr "问") []).1 rfl⟩

/-! The /ask route of app.py, session context, and error paths -/

/-- The fixed follow-up markers of app.py. -/
def FOLLOWUP_HINTS : List (List Char) :=
  [pystr "基于以上", pystr "在此基础上", pystr "继续", pystr "接着",
   pystr "刚才", pystr "上一个", pystr "上述", pystr "前面的"]

/-- Model of `looks_like_followup`: the stripped question starts with one
of the fixed markers. -/
def looks_like_followup (q : List Char) : Bool :=
  FOLLOWUP_HINTS.any (fun k => k.isPrefixOf (pstrip q))

/-- One stored session context: the question, the final query, and the
results of the last successful execution. -/
structure Ctx where
  query : List Char
  cypher : List Char
  results : List Row
deriving Repr, DecidableEq

/-- The session map `LAST_CONTEXT`, keyed by session id. -/
def SMap : Type := List Char → Option Ctx

/-- The response model of app.py with its pydantic defaults. -/
structure CypherResponse where
  query : List Char
  cypher : List Char
  results : List Row
  note : Option (List Char)
  session_id : Option (List Char)
  used_prev_context : Bool
  answer : Option (List Char)
  answer_format : Option (List Char)
deriving Repr, DecidableEq

/-- The observable outcome of one `/ask` request: a response, a client
error (HTTP 400), or a server error (HTTP 500). -/
inductive AskOut where
  | ok (resp : CypherResponse)
  | clientErr (detail : List Char)
  | serverErr
deriving Repr, DecidableEq

/-- The detail text of the safety rejection, which embeds the offending
query text. -/
def rejectDetail (cypher : List Char) : List Char :=
  pystr "生成的 Cypher 非只读或含有危险操作：\n" ++ cypher

/-- Model of the `/ask` handler of app.py.  The generator adapter
(`llm_to_cypher`) and the store (`run_cypher`) are oracles returning
either a value or an exception; any exception becomes a server error
(HTTP 500), and the safety rejection becomes a client error (HTTP 400).
The generator is consulted first, with the prior context exactly when
the question is a follow-up; the template chain and the repair then
produce the final candidate (`finalCypher`); the context slot of the
session is overwritten only after a successful execution (and before
formatting, which on a malformed row fails after the overwrite, as in
the source).  The truthiness test on the prior context dict is modelled
by `Option.isSome`, faithful for the non-empty dicts the handler
stores. -/
def ask (gen : List Char → Option Ctx → Except Unit (List Char))
    (store : List Char → Except Unit (List Row))
    (st : SMap) (query session_id : List Char) (dryrun : Bool) :
    AskOut × SMap :=
  let prev_ctx := if looks_like_followup query then st session_id else none
  match gen query prev_ctx with
  | Except.error _ => (AskOut.serverErr, st)
  | Except.ok raw =>
    let cypher := finalCypher query raw
    if App.is_safe_cypher cypher then
      if dryrun then
        (AskOut.ok ⟨query, cypher, [], some (pystr "dryrun=true"),
          none, false, none, none⟩, st)
      else
        match store cypher with
        | Except.error _ => (AskOut.serverErr, st)
        | Except.ok results =>
          let st2 : SMap := fun k =>
            if k = session_id then some ⟨query, cypher, results⟩ else st k
          match format_answer query results with
          | none => (AskOut.serverErr, st2)
          | some af =>
            (AskOut.ok ⟨query, cypher, results, none, some session_id,
              prev_ctx.isSome, some af.1, some af.2⟩, st2)
    else
      (AskOut.clientErr (rejectDetail cypher), st)

/-- C3 counterexample: the claim that the template override already ran
before the generator is consulted is false on the code.  The question
matches a template, yet when the generator fails the request surfaces a
server error and no templated query is produced, because the handler
calls the generator before template matching. -/
theorem C3_counterexample :
    templateFor (pystr "在证型为肺热的案例中有哪些药方") ≠ none ∧
    ask (fun _ _ => Except.error ()) (fun _ => Except.ok [])
        (fun _ => none) (pystr "在证型为肺热的案例中有哪些药方")
        (pystr "default") false =
      (AskOut.serverErr, fun _ => none) :=
  ⟨by decide, rfl⟩

/-- C3 amended: when the generator adapter is not configured or its
upstream call fails, `/ask` surfaces a server error with no retry and
leaves the session map unchanged; the template override does not run in
that case — the generator is consulted before template matching, so
even a question that matches a template produces no query. -/
theorem C3_generator_failure_server_error
    (gen : List Char → Option Ctx → Except Unit (List Char))
    (store : List Char → Except Unit (List Row))
    (st : SMap) (q sid : List Char) (d : Bool)
    (h : gen q (if looks_like_followup q then st sid else none) = Except.error ()) :
    ask gen store st q sid d = (AskOut.serverErr, st) := by
  simp only [ask]
  rw [h]

/-- C3 witness for the amended statement. -/
theorem C3_witness :
    ask (fun _ _ => Except.error ()) (fun _ => Except.ok []) (fun _ => none)
        (pystr "系统中都有哪些症状") (pystr "default") true =
      (AskOut.serverErr, fun _ => none) :=
  C3_generator_failure_server_error _ _ _ _ _ _ rfl

/-- C5: whenever the safety validator rejects the final candidate query,
`/ask` surfaces a client error (HTTP 400) whose detail embeds the
offending query text, and the query is never executed: the outcome is
the same for every store oracle (the `run_cypher` call is not reached)
and the session map is unchanged. -/
theorem C5_rejected_not_executed
    (gen : List Char → Option Ctx → Except Unit (List Char))
    (store : List Char → Except Unit (List Row))
    (st : SMap) (q sid raw : List Char) (d : Bool)
    (hgen : gen q (if looks_like_followup q then st sid else none) = Except.ok raw)
    (hrej : App.is_safe_cypher (finalCypher q raw) = false) :
    ask gen store st q sid d =
      (AskOut.clientErr (rejectDetail (finalCypher q raw)), st) := by
  simp only [ask]
  rw [hgen]
  simp [hrej]

/-- C5 witness: a destructive candidate for an untemplated question is
rejected with a 400 carrying the query text, with the store untouched. -/
theorem C5_witness :
    ask (fun _ _ => Except.ok (pystr "MATCH (c:Case) DETACH DELETE c"))
        (fun _ => Except.ok []) (fun _ => none) (pystr "删除所有案例")
        (pystr "default") false =
      (AskOut.clientErr (rejectDetail (finalCypher (pystr "删除所有案例")
        (pystr "MATCH (c:Case) DETACH DELETE c"))), fun _ => none) :=
  C5_rejected_not_executed _ _ _ _ _ _ _ rfl (by decide)

/-- C7: after a successful non-dryrun call on a session, the stored
context for that session is exactly that call's question, final query,
and results (first conjunct); the response reports use of prior context
exactly when the question is a follow-up and a context exists (second
conjunct); and the generator is consulted with the prior context if and
only if the question is a follow-up: the whole outcome depends on the
generator only through its value at the question paired with
`if looks_like_followup q then st sid else none` — in particular a
non-follow-up question never consults the stored context, yet still
overwrites it on success (third conjunct). -/
theorem C7_context_overwrite_and_followup_gating
    (gen gen2 : List Char → Option Ctx → Except Unit (List Char))
    (store : List Char → Except Unit (List Row))
    (st : SMap) (q sid raw : List Char) (rs : List Row) (ans fmt : List Char)
    (hgen : gen q (if looks_like_followup q then st sid else none) = Except.ok raw)
    (hsafe : App.is_safe_cypher (finalCypher q raw) = true)
    (hstore : store (finalCypher q raw) = Except.ok rs)
    (hfmt : format_answer q rs = some (ans, fmt)) :
    ((ask gen store st q sid false).2 sid = some ⟨q, finalCypher q raw, rs⟩) ∧
    ((ask gen store st q sid false).1 =
      AskOut.ok ⟨q, finalCypher q raw, rs, none, some sid,
        (looks_like_followup q && (st sid).isSome), some ans, some fmt⟩) ∧
    (gen2 q (if looks_like_followup q then st sid else none) =
        gen q (if looks_like_followup q then st sid else none) →
      ask gen2 store st q sid false = ask gen store st q sid false) := by
  refine ⟨?_, ?_, ?_⟩
  · simp only [ask]
    rw [hgen]
    simp [hsafe, hstore, hfmt]
  · simp only [ask]
    rw [hgen]
    simp only [hsafe, if_true, Bool.false_eq_true, if_false, hstore, hfmt]
    by_cases hf : looks_like_followup q = true
    · simp [hf]
    · simp [hf]
  · intro hg2
    simp only [ask]
    rw [hg2]

/-- C7 witness: a non-follow-up question on an empty session map; after
the successful call the context slot holds exactly the call's question,
final query, and results, and the response reports no prior context. -/
theorem C7_witness :
    ((ask (fun _ _ => Except.ok (pystr "MATCH (c:Case) RETURN c.case_id AS 案例号"))
        (fun _ => Except.ok [[(pystr "案例号", JVal.str (pystr "1"))]])
        (fun _ => none) (pystr "系统中都有哪些症状") (pystr "default") false).2
      (pystr "default") =
    some ⟨pystr "系统中都有哪些症状",
      finalCypher (pystr "系统中都有哪些症状")
        (pystr "MATCH (c:Case) RETURN c.case_id AS 案例号"),
      [[(pystr "案例号", JVal.str (pystr "1"))]]⟩) :=
  (C7_context_overwrite_and_followup_gating
    (fun _ _ => Except.ok (pystr "MATCH (c:Case) RETURN c.case_id AS 案例号"))
    (fun _ _ => Except.ok (pystr "MATCH (c:Case) RETURN c.case_id AS 案例号"))
    (fun _ => Except.ok [[(pystr "案例号", JVal.str (pystr "1"))]])
    (fun _ => none) (pystr "系统中都有哪些症状") (pystr "default")
    (pystr "MATCH (c:Case) RETURN c.case_id AS 案例号")
    [[(pystr "案例号", JVal.str (pystr "1"))]] _ _
    rfl (by decide) rfl rfl).1

/-- C10: a request that does not complete a successful execution — the
generator fails, the final candidate is rejected by the validator, the
request is a dryrun, or the store call fails — leaves the session map
`LAST_CONTEXT` unchanged for every session id; only a successfully
executed query writes a context entry. -/
theorem C10_state_unchanged_without_success
    (gen : List Char → Option Ctx → Except Unit (List Char))
    (store : List Char → Except Unit (List Row))
    (st : SMap) (q sid : List Char) (d : Bool)
    (h : ∀ raw, gen q (if looks_like_followup q then st sid else none) = Except.ok raw →
      App.is_safe_cypher (finalCypher q raw) = false ∨ d = true ∨
        store (finalCypher q raw) = Except.error ()) :
    (ask gen store st q sid d).2 = st := by
  simp only [ask]
  cases hg : gen q (if looks_like_followup q then st sid else none) with
  | error e => rfl
  | ok raw =>
    rcases h raw hg with hu | hd | hs
    · simp [hu]
    · cases hsafe : App.is_safe_cypher (finalCypher q raw) <;> simp [hsafe, hd]
    · cases hsafe : App.is_safe_cypher (finalCypher q raw) with
      | false => simp [hsafe]
      | true =>
        cases d with
        | true => simp [hsafe]
        | false => simp [hsafe, hs]

/-- C10 witness: a dryrun request with a successful generator leaves the
(empty) session map unchanged. -/
theorem C10_witness :
    (ask (fun _ _ => Except.ok (pystr "MATCH (n) RETURN n"))
        (fun _ => Except.ok []) (fun _ => none)
        (pystr "系统中都有哪些脉象") (pystr "default") true).2 =
      (fun _ => none) :=
  C10_state_unchanged_without_success _ _ _ _ _ _
    (fun _ _ => Or.inr (Or.inl rfl))
